import Mathlib

/- Verification of the DM36x firmware packager (dm36xpackager.py).

   Shallow embedding conventions:
   * Python bytearrays are modelled as `List Nat`, one element per byte.
   * Python 2 integer division `/` and `%` on the non-negative integers that
     occur here are `Nat.div` and `Nat.mod`.
   * `struct.pack('<I', v)` (a little-endian 32-bit word) is modelled as the
     four bytes of `v % 2 ^ 32`.
   * In-place mutation of a bytearray becomes explicit state passing; the
     fallible `locate` (which raises when contents do not fit) returns
     `Except String (List Nat)`.
   * A run of single-byte stores at consecutive offsets (MBR.__init__ and
     MBR.calc_partition) is modelled as one contiguous splice of the listed
     bytes at the first offset.
   * File reads are modelled by their outcome: an `Except String (List Nat)`
     carried in `Args` in place of the file path handed to `read_file`. -/

def BLOCK_SIZE : Nat := 512

/- Constants from `class MBR`. -/
def FS_TYPE_LINUX : Nat := 0x83
def STORAGE_NUM_HEADS : Nat := 255
def STORAGE_NUM_SECTORS : Nat := 63

def UBL_MAGIC_NUM : Nat := 0xA1ACED00
def UBL_ENTRY_POINT : Nat := 0x00000100
def UBL_LOAD_ADDRESS : Nat := 0x00000000

def UBOOT_MAGIC_NUM : Nat := 0xA1ACED66
def UBOOT_LOAD_ADDRESS : Nat := 0x81080000
def UBOOT_ENTRY_POINT : Nat := UBOOT_LOAD_ADDRESS

/-- The memory-map dictionary read from the configuration file: each key used
by the packager becomes a field, every value a non-negative block number or
block count. -/
structure MemoryMap where
  ubl_start : Nat
  ubl_count : Nat
  ubl_sig_start : Nat
  ubl_sig_count : Nat
  uboot_start : Nat
  uboot_count : Nat
  uboot_sig_start : Nat
  uboot_sig_count : Nat
  uboot_env_start : Nat
  uboot_env_count : Nat
  rootfs_a_partition_start : Nat
  rootfs_a_partition_count : Nat
  rootfs_b_partition_start : Nat
  rootfs_b_partition_count : Nat
  working_partition_start : Nat
  working_partition_count : Nat
  debug_partition_start : Nat
  debug_partition_count : Nat

/-- MBR.lba_to_head: `(x / self.STORAGE_NUM_SECTORS) % self.STORAGE_NUM_HEADS`. -/
def lba_to_head (x : Nat) : Nat := x / STORAGE_NUM_SECTORS % STORAGE_NUM_HEADS

/-- MBR.lba_to_sector: `(x % self.STORAGE_NUM_SECTORS) + 1`. -/
def lba_to_sector (x : Nat) : Nat := x % STORAGE_NUM_SECTORS + 1

/-- MBR.lba_to_cylinder: `x / (self.STORAGE_NUM_SECTORS * self.STORAGE_NUM_HEADS)`. -/
def lba_to_cylinder (x : Nat) : Nat := x / (STORAGE_NUM_SECTORS * STORAGE_NUM_HEADS)

/-- The packed cylinder-high-bits/sector byte written at entry offsets +2 and
+6: `((chs[0] >> 2) & 0xc0) | chs[2]`. -/
def chs_pack_cs (x : Nat) : Nat :=
  ((lba_to_cylinder x >>> 2) &&& 0xc0) ||| lba_to_sector x

/-- The cylinder low byte written at entry offsets +3 and +7:
`chs[0] & 0xff`. -/
def chs_pack_cyl_low (x : Nat) : Nat := lba_to_cylinder x &&& 0xff

/-- Python slice assignment `m[off : off + len(bytes)] = bytes` for an
in-range store of consecutive bytes. -/
def set_bytes (m : List Nat) (off : Nat) (bytes : List Nat) : List Nat :=
  m.take off ++ bytes ++ m.drop (off + bytes.length)

/-- The sixteen bytes stored by MBR.calc_partition at offsets
`mbr_offset + 0 .. mbr_offset + 15`, in source order: boot flag 0, starting
CHS triple, partition type, ending CHS triple (the end LBA is
`start + count - 1`, non-negative in Python for every partition the program
emits; here it is `Nat` subtraction), then the start LBA and the sector
count, each as a little-endian 32-bit word. -/
def partition_entry (start count type : Nat) : List Nat :=
  [0,
   lba_to_head start,
   chs_pack_cs start,
   chs_pack_cyl_low start,
   type,
   lba_to_head (start + count - 1),
   chs_pack_cs (start + count - 1),
   chs_pack_cyl_low (start + count - 1),
   start &&& 0xff, (start >>> 8) &&& 0xff, (start >>> 16) &&& 0xff,
   (start >>> 24) &&& 0xff,
   count &&& 0xff, (count >>> 8) &&& 0xff, (count >>> 16) &&& 0xff,
   (count >>> 24) &&& 0xff]

/-- MBR.calc_partition: store the sixteen entry bytes at `mbr_offset`. -/
def calc_partition (mbr : List Nat) (mbr_offset start count type : Nat) : List Nat :=
  set_bytes mbr mbr_offset (partition_entry start count type)

/-- MBR.partition: `part_offsets = [446, 462, 478, 494]`, then
`calc_partition(part_offsets[index], ...)`. -/
def mbr_partition (mbr : List Nat) (index start count type : Nat) : List Nat :=
  calc_partition mbr (([446, 462, 478, 494] : List Nat).getD index 0) start count type

/-- The initial 512-byte MBR buffer from `MBR.__init__`: all zeros except the
disk-identifier bytes 0x11 0x22 0x33 0x44 at 440..443 and the signature bytes
0x55 0xaa at 510..511. -/
def mbr_init : List Nat :=
  set_bytes (set_bytes (List.replicate 512 0) 440 [0x11, 0x22, 0x33, 0x44])
    510 [0x55, 0xaa]

/-- build_mbr_a: the MBR that lists the first rootfs partition first. -/
def build_mbr_a (m : MemoryMap) : List Nat :=
  mbr_partition (mbr_partition (mbr_partition (mbr_partition mbr_init
    0 m.rootfs_a_partition_start m.rootfs_a_partition_count FS_TYPE_LINUX)
    1 m.rootfs_b_partition_start m.rootfs_b_partition_count FS_TYPE_LINUX)
    2 m.working_partition_start m.working_partition_count FS_TYPE_LINUX)
    3 m.debug_partition_start m.debug_partition_count FS_TYPE_LINUX

/-- build_mbr_b: the MBR that lists the second rootfs partition first. -/
def build_mbr_b (m : MemoryMap) : List Nat :=
  mbr_partition (mbr_partition (mbr_partition (mbr_partition mbr_init
    0 m.rootfs_b_partition_start m.rootfs_b_partition_count FS_TYPE_LINUX)
    1 m.rootfs_a_partition_start m.rootfs_a_partition_count FS_TYPE_LINUX)
    2 m.working_partition_start m.working_partition_count FS_TYPE_LINUX)
    3 m.debug_partition_start m.debug_partition_count FS_TYPE_LINUX

/-- The four bytes of `struct.pack('<I', v)`: little-endian 32-bit word of
`v % 2 ^ 32` (the source packs values that fit in 32 bits). -/
def pack32 (v : Nat) : List Nat :=
  [v % 256, v / 256 % 256, v / 65536 % 256, v / 16777216 % 256]

/-- build_rbl_descriptor: the five fields packed `'<IIIII'`, spliced over the
start of a `128 * 4`-byte zero buffer. -/
def build_rbl_descriptor
    (magic entry_point num_blocks start_block load_address : Nat) : List Nat :=
  let header := pack32 magic ++ pack32 entry_point ++ pack32 num_blocks ++
    pack32 start_block ++ pack32 load_address
  header ++ List.replicate (128 * 4 - header.length) 0

/-- Python bytearray repetition `descriptor * n`. -/
def repBytes (l : List Nat) : Nat → List Nat
  | 0 => []
  | n + 1 => l ++ repBytes l n

/-- build_ubl_descriptor_block: the UBL RBL descriptor repeated
`ubl_sig_count` times. -/
def build_ubl_descriptor_block (m : MemoryMap) : List Nat :=
  repBytes (build_rbl_descriptor UBL_MAGIC_NUM UBL_ENTRY_POINT m.ubl_count
    m.ubl_start UBL_LOAD_ADDRESS) m.ubl_sig_count

/-- build_uboot_descriptor_block: the U-Boot RBL descriptor repeated
`uboot_sig_count` times. -/
def build_uboot_descriptor_block (m : MemoryMap) : List Nat :=
  repBytes (build_rbl_descriptor UBOOT_MAGIC_NUM UBOOT_ENTRY_POINT m.uboot_count
    m.uboot_start UBOOT_LOAD_ADDRESS) m.uboot_sig_count

/-- build_uboot_environment_block: `bytearray(uboot_env_count * BLOCK_SIZE)`. -/
def build_uboot_environment_block (m : MemoryMap) : List Nat :=
  List.replicate (m.uboot_env_count * BLOCK_SIZE) 0

/-- locate: the layout compositor.  Checks `len(contents) > end` (with
`end = start + block_count * BLOCK_SIZE`), extends the buffer with zeros up to
`actual_end` when needed, then performs the Python slice assignment
`memory[start:actual_end] = contents`, which replaces that range by `contents`
(inserting bytes when `contents` is longer than the range). -/
def locate (memory : List Nat) (block_offset block_count : Nat)
    (contents : List Nat) : Except String (List Nat) :=
  let start := block_offset * BLOCK_SIZE
  let stop := start + block_count * BLOCK_SIZE
  if contents.length > stop then
    Except.error "Block size not large enough for contents"
  else
    let actual_end := min stop (start + contents.length)
    let grown := if memory.length < actual_end then
        memory ++ List.replicate (actual_end - memory.length) 0
      else memory
    Except.ok (grown.take start ++ contents ++ grown.drop actual_end)

/-- The parsed command-line arguments consumed by the builders.  File-path
fields are replaced by the outcome of `read_file` on them; path-only fields
(config, fwfile, imgfile) play no role in the modelled computations. -/
structure Args where
  bootloader : Bool
  version : String
  additional_checks : Option String
  ubl_file : Except String (List Nat)
  uboot_file : Except String (List Nat)
  rootfs_file : Except String (List Nat)

/-- build_boot_img: MBR A, the two descriptor blocks, the empty environment,
then the two loader binaries, placed in source order into an initially empty
buffer. -/
def build_boot_img (m : MemoryMap) (args : Args) : Except String (List Nat) := do
  let memory : List Nat := []
  let memory ← locate memory 0 1 (build_mbr_a m)
  let memory ← locate memory m.ubl_sig_start m.ubl_sig_count (build_ubl_descriptor_block m)
  let memory ← locate memory m.uboot_sig_start m.uboot_sig_count (build_uboot_descriptor_block m)
  let memory ← locate memory m.uboot_env_start m.uboot_env_count (build_uboot_environment_block m)
  let memory ← locate memory m.ubl_start m.ubl_count (← args.ubl_file)
  let memory ← locate memory m.uboot_start m.uboot_count (← args.uboot_file)
  return memory

/-- build_complete_img: the boot image, then the root filesystem, then the
two 32-block zero stubs over the debug and working partitions. -/
def build_complete_img (m : MemoryMap) (args : Args) : Except String (List Nat) := do
  let memory ← build_boot_img m args
  let memory ← locate memory m.rootfs_a_partition_start m.rootfs_a_partition_count
    (← args.rootfs_file)
  let memory ← locate memory m.debug_partition_start m.debug_partition_count
    (List.replicate (32 * BLOCK_SIZE) 0)
  let memory ← locate memory m.working_partition_start m.working_partition_count
    (List.replicate (32 * BLOCK_SIZE) 0)
  return memory

/-- The `fileinfo` dictionary of create_firmware_package: for each of the four
data entries, the pair (byte length, SHA-1 hex digest). -/
structure FileInfo where
  mbr_a_img : Nat × String
  mbr_b_img : Nat × String
  boot_img : Nat × String
  rootfs_img : Nat × String

/-- The values substituted into the installer-script template by
`string.Template(script_template).substitute(...)` in build_script; the
rendered script is this value record applied to the fixed template text. -/
structure ScriptValues where
  version : String
  mbr_a_img_size : Nat
  mbr_b_img_size : Nat
  boot_img_size : Nat
  rootfs_img_size : Nat
  boot_img_sha1 : String
  mbr_a_img_sha1 : String
  mbr_b_img_sha1 : String
  rootfs_img_sha1 : String
  rootfs_a_partition_start : Nat
  rootfs_b_partition_start : Nat
  working_partition_start : Nat
  debug_partition_count : Nat
  force_bootloader : String
  additional_checks : String

/-- build_script: the substitution record assembled from the memory map, the
arguments and the fileinfo table (the additional-checks fragment is the read
file when a path was given, else the empty string). -/
def build_script (memory_map : MemoryMap) (args : Args) (fileinfo : FileInfo) :
    ScriptValues :=
  { version := args.version
    mbr_a_img_size := fileinfo.mbr_a_img.1
    mbr_b_img_size := fileinfo.mbr_b_img.1
    boot_img_size := fileinfo.boot_img.1
    rootfs_img_size := fileinfo.rootfs_img.1
    boot_img_sha1 := fileinfo.boot_img.2
    mbr_a_img_sha1 := fileinfo.mbr_a_img.2
    mbr_b_img_sha1 := fileinfo.mbr_b_img.2
    rootfs_img_sha1 := fileinfo.rootfs_img.2
    rootfs_a_partition_start := memory_map.rootfs_a_partition_start
    rootfs_b_partition_start := memory_map.rootfs_b_partition_start
    working_partition_start := memory_map.working_partition_start
    debug_partition_count := memory_map.debug_partition_count
    force_bootloader := if args.bootloader then "true" else "false"
    additional_checks := args.additional_checks.getD "" }

/-- One member written into the firmware zip: either the rendered installer
script or a raw data artifact. -/
inductive ZipEntry where
  | script (s : ScriptValues)
  | data (bytes : List Nat)

/-- create_firmware_package: build the four artifacts in memory, record their
sizes and SHA-1 digests, render the script, then write the five archive
members in source order.  `sha1` is the digest function from the external
hashlib collaborator, passed as a parameter. -/
def create_firmware_package (sha1 : List Nat → String) (m : MemoryMap)
    (args : Args) : Except String (List (String × ZipEntry)) := do
  let mbr_a := build_mbr_a m
  let mbr_b := build_mbr_b m
  let bootimg ← build_boot_img m args
  let rootfs ← args.rootfs_file
  let fileinfo : FileInfo :=
    { mbr_a_img := (mbr_a.length, sha1 mbr_a)
      mbr_b_img := (mbr_b.length, sha1 mbr_b)
      boot_img := (bootimg.length, sha1 bootimg)
      rootfs_img := (rootfs.length, sha1 rootfs) }
  let script := build_script m args fileinfo
  return [("install.sh", ZipEntry.script script),
          ("data/mbr-a.img", ZipEntry.data mbr_a),
          ("data/mbr-b.img", ZipEntry.data mbr_b),
          ("data/rootfs.img", ZipEntry.data rootfs),
          ("data/boot.img", ZipEntry.data bootimg)]

/-- create_firmware_image: the bytes written to the flat image file, produced
only when every placement of build_complete_img has succeeded. -/
def create_firmware_image (m : MemoryMap) (args : Args) :
    Except String (List Nat) :=
  build_complete_img m args

/-- Zero-extension of a buffer to length at least `n`: the `memory.extend`
branch of `locate`. -/
def growTo (memory : List Nat) (n : Nat) : List Nat :=
  if memory.length < n then memory ++ List.replicate (n - memory.length) 0
  else memory

/-- The successful branch of `locate`, with the write range uncapped: splice
`contents` over `[start, start + len contents)` of the zero-extended buffer. -/
def placeBytes (memory : List Nat) (start : Nat) (contents : List Nat) : List Nat :=
  (growTo memory (start + contents.length)).take start ++ contents ++
    (growTo memory (start + contents.length)).drop (start + contents.length)

/-- Modelled from the spec wording of the composition contract: the nine
placements of the complete device image as (block offset, block-count limit,
contents) triples, in the stated order. -/
def complete_img_placements (m : MemoryMap) (ublFile ubootFile rootfsFile : List Nat) :
    List (Nat × Nat × List Nat) :=
  [(0, 1, build_mbr_a m),
   (m.ubl_sig_start, m.ubl_sig_count, build_ubl_descriptor_block m),
   (m.uboot_sig_start, m.uboot_sig_count, build_uboot_descriptor_block m),
   (m.uboot_env_start, m.uboot_env_count, build_uboot_environment_block m),
   (m.ubl_start, m.ubl_count, ublFile),
   (m.uboot_start, m.uboot_count, ubootFile),
   (m.rootfs_a_partition_start, m.rootfs_a_partition_count, rootfsFile),
   (m.debug_partition_start, m.debug_partition_count,
     List.replicate (32 * BLOCK_SIZE) 0),
   (m.working_partition_start, m.working_partition_count,
     List.replicate (32 * BLOCK_SIZE) 0)]

/-- Reconstruction of an LBA from the three CHS bytes as they are emitted
into a partition entry (head byte, packed cylinder-high-bits/sector byte,
cylinder-low byte): undo the packing, then
`(cylinder * heads + head) * sectors_per_track + (sector - 1)`. -/
def chs_reconstruct_lba (b1 b2 b3 : Nat) : Nat :=
  (((b2 &&& 0xc0) <<< 2 ||| b3) * STORAGE_NUM_HEADS + b1) * STORAGE_NUM_SECTORS +
    ((b2 &&& 0x3f) - 1)

/-- The memory map of the end-to-end scenario: the five values fixed by the
spec plus suitable non-overlapping assignments for the remaining regions. -/
def scenario_map : MemoryMap :=
  { ubl_start := 1, ubl_count := 10, ubl_sig_start := 11, ubl_sig_count := 2,
    uboot_start := 20, uboot_count := 50, uboot_sig_start := 13,
    uboot_sig_count := 2, uboot_env_start := 15, uboot_env_count := 2,
    rootfs_a_partition_start := 100, rootfs_a_partition_count := 1000,
    rootfs_b_partition_start := 1100, rootfs_b_partition_count := 1000,
    working_partition_start := 2100, working_partition_count := 500,
    debug_partition_start := 2600, debug_partition_count := 500 }

theorem growTo_length (memory : List Nat) (n : Nat) :
    (growTo memory n).length = max memory.length n := by
  unfold growTo
  split <;> simp <;> omega

theorem growTo_getD (memory : List Nat) (n i : Nat) :
    (growTo memory n).getD i 0 = memory.getD i 0 := by
  unfold growTo
  split
  · rw [List.getD_eq_getElem?_getD, List.getD_eq_getElem?_getD]
    rcases Nat.lt_or_ge i memory.length with h | h
    · rw [List.getElem?_append_left h]
    · rw [List.getElem?_append_right h, List.getElem?_eq_none h,
        List.getElem?_replicate]
      split <;> rfl
  · rfl

theorem placeBytes_length (memory : List Nat) (start : Nat) (contents : List Nat) :
    (placeBytes memory start contents).length =
      max memory.length (start + contents.length) := by
  unfold placeBytes
  have hg := growTo_length memory (start + contents.length)
  simp [List.length_append, hg]
  omega

theorem placeBytes_getD (memory : List Nat) (start : Nat) (contents : List Nat)
    (i : Nat) :
    (placeBytes memory start contents).getD i 0 =
      if start ≤ i ∧ i < start + contents.length then contents.getD (i - start) 0
      else memory.getD i 0 := by
  unfold placeBytes
  have hg := growTo_length memory (start + contents.length)
  have htake : (List.take start (growTo memory (start + contents.length))).length =
      start := by
    simp; omega
  rw [List.getD_eq_getElem?_getD]
  rcases Nat.lt_or_ge i start with h1 | h1
  · rw [List.getElem?_append_left (by rw [List.length_append, htake]; omega),
      List.getElem?_append_left (by rw [htake]; exact h1),
      List.getElem?_take, if_pos h1, ← List.getD_eq_getElem?_getD, growTo_getD,
      if_neg (by omega)]
  · rcases Nat.lt_or_ge i (start + contents.length) with h2 | h2
    · rw [List.getElem?_append_left (by rw [List.length_append, htake]; omega),
        List.getElem?_append_right (by rw [htake]; exact h1), htake,
        ← List.getD_eq_getElem?_getD, if_pos ⟨h1, h2⟩]
    · rw [List.getElem?_append_right (by rw [List.length_append, htake]; omega),
        List.length_append, htake, List.getElem?_drop]
      have harith : start + contents.length + (i - (start + contents.length)) = i := by
        omega
      rw [harith, ← List.getD_eq_getElem?_getD, growTo_getD, if_neg (by omega)]

theorem placeBytes_slice (memory : List Nat) (start : Nat) (contents : List Nat) :
    ((placeBytes memory start contents).drop start).take contents.length =
      contents := by
  unfold placeBytes
  have htake : (List.take start (growTo memory (start + contents.length))).length =
      start := by
    have := growTo_length memory (start + contents.length)
    simp; omega
  rw [List.append_assoc, List.drop_left' htake, List.take_left' rfl]

theorem placeBytes_slice_len (memory : List Nat) (start : Nat)
    (contents : List Nat) (n : Nat) (h : contents.length = n) :
    ((placeBytes memory start contents).drop start).take n = contents := by
  rw [← h]
  exact placeBytes_slice memory start contents

/-- Under the declared capacity, `locate` succeeds and is exactly the splice
`placeBytes` at byte offset `block_offset * BLOCK_SIZE`. -/
theorem locate_ok (memory : List Nat) (block_offset block_count : Nat)
    (contents : List Nat) (h : contents.length ≤ block_count * BLOCK_SIZE) :
    locate memory block_offset block_count contents =
      Except.ok (placeBytes memory (block_offset * BLOCK_SIZE) contents) := by
  have h1 : ¬ contents.length > block_offset * BLOCK_SIZE + block_count * BLOCK_SIZE := by
    omega
  have h2 : min (block_offset * BLOCK_SIZE + block_count * BLOCK_SIZE)
      (block_offset * BLOCK_SIZE + contents.length) =
      block_offset * BLOCK_SIZE + contents.length := by omega
  simp only [locate, placeBytes, growTo, h2, if_neg h1]

theorem repBytes_length (l : List Nat) (n : Nat) :
    (repBytes l n).length = n * l.length := by
  induction n with
  | zero => simp [repBytes]
  | succ k ih => simp [repBytes, ih]; ring

theorem repBytes_slice (l : List Nat) (n i : Nat) (h : i < n) :
    ((repBytes l n).drop (i * l.length)).take l.length = l := by
  induction n generalizing i with
  | zero => omega
  | succ k ih =>
    cases i with
    | zero =>
      simp only [repBytes, Nat.zero_mul, List.drop_zero]
      exact List.take_left' rfl
    | succ j =>
      have harith : (j + 1) * l.length = l.length + j * l.length := by ring
      rw [repBytes, harith, List.drop_append]
      exact ih j (by omega)

/-- The overflow branch of `locate`: when the contents exceed the slot
capacity but not the absolute end, the slice range is capped at `stop` while
the full contents are spliced in. -/
theorem locate_overflow (memory : List Nat) (block_offset block_count : Nat)
    (contents : List Nat)
    (hlow : block_count * BLOCK_SIZE < contents.length)
    (hhigh : contents.length ≤ block_offset * BLOCK_SIZE + block_count * BLOCK_SIZE) :
    locate memory block_offset block_count contents =
      Except.ok ((growTo memory (block_offset * BLOCK_SIZE + block_count * BLOCK_SIZE)).take
          (block_offset * BLOCK_SIZE) ++ contents ++
        (growTo memory (block_offset * BLOCK_SIZE + block_count * BLOCK_SIZE)).drop
          (block_offset * BLOCK_SIZE + block_count * BLOCK_SIZE)) := by
  have h1 : ¬ contents.length > block_offset * BLOCK_SIZE + block_count * BLOCK_SIZE := by
    omega
  have h2 : min (block_offset * BLOCK_SIZE + block_count * BLOCK_SIZE)
      (block_offset * BLOCK_SIZE + contents.length) =
      block_offset * BLOCK_SIZE + block_count * BLOCK_SIZE := by omega
  simp only [locate, growTo, h2, if_neg h1]

theorem set_bytes_eq_placeBytes (m : List Nat) (off : Nat) (e : List Nat)
    (h : off + e.length ≤ m.length) : set_bytes m off e = placeBytes m off e := by
  unfold set_bytes placeBytes growTo
  rw [if_neg (by omega)]

theorem partition_entry_length (s c t : Nat) :
    (partition_entry s c t).length = 16 := rfl

set_option maxRecDepth 4000 in
theorem mbr_init_length : mbr_init.length = 512 := by rfl

/-- Two lists agree on the slice `[a, a + b)` when they agree pointwise
there. -/
theorem slice_congr (x y : List Nat) (a b : Nat) (hx : a + b ≤ x.length)
    (hy : a + b ≤ y.length)
    (h : ∀ i, a ≤ i → i < a + b → x.getD i 0 = y.getD i 0) :
    (x.drop a).take b = (y.drop a).take b := by
  apply List.ext_getElem
  · simp [List.length_take, List.length_drop]
    omega
  · intro n h1 h2
    have hnb : n < b := by
      simp [List.length_take, List.length_drop] at h1
      omega
    have hb1 : a + n < x.length := by
      simp [List.length_take, List.length_drop] at h1
      omega
    have hb2 : a + n < y.length := by omega
    rw [List.getElem_take, List.getElem_drop, List.getElem_take, List.getElem_drop,
      ← List.getD_eq_getElem x 0 hb1, ← List.getD_eq_getElem y 0 hb2]
    exact h (a + n) (by omega) (by omega)

theorem take_congr (x y : List Nat) (b : Nat) (hx : b ≤ x.length)
    (hy : b ≤ y.length) (h : ∀ i, i < b → x.getD i 0 = y.getD i 0) :
    x.take b = y.take b := by
  have := slice_congr x y 0 b (by omega) (by omega) (fun i _ hi => h i (by omega))
  simpa [List.drop_zero] using this

theorem drop_congr (x y : List Nat) (a : Nat) (hlen : x.length = y.length)
    (h : ∀ i, a ≤ i → x.getD i 0 = y.getD i 0) : x.drop a = y.drop a := by
  apply List.ext_getElem
  · simp [List.length_drop, hlen]
  · intro n h1 h2
    have hb1 : a + n < x.length := by
      simp [List.length_drop] at h1
      omega
    have hb2 : a + n < y.length := by omega
    rw [List.getElem_drop, List.getElem_drop,
      ← List.getD_eq_getElem x 0 hb1, ← List.getD_eq_getElem y 0 hb2]
    exact h (a + n) (by omega)

/-- A placement does not disturb a slice disjoint from its write window. -/
theorem placeBytes_slice_frame (memory contents : List Nat) (s a b : Nat)
    (hmem : a + b ≤ memory.length)
    (hdisj : a + b ≤ s ∨ s + contents.length ≤ a) :
    ((placeBytes memory s contents).drop a).take b =
      (memory.drop a).take b := by
  apply slice_congr _ _ a b (by rw [placeBytes_length]; omega) hmem
  intro i h1 h2
  rw [placeBytes_getD, if_neg (by omega)]

/-- Four in-range entry splices coincide with their `placeBytes` form. -/
theorem quad_canon (base e0 e1 e2 e3 : List Nat) (hb : base.length = 512)
    (h0 : e0.length = 16) (h1 : e1.length = 16) (h2 : e2.length = 16)
    (h3 : e3.length = 16) :
    set_bytes (set_bytes (set_bytes (set_bytes base 446 e0) 462 e1) 478 e2)
      494 e3 =
    placeBytes (placeBytes (placeBytes (placeBytes base 446 e0) 462 e1) 478 e2)
      494 e3 := by
  have s1 := set_bytes_eq_placeBytes base 446 e0 (by omega)
  have hl1 : (placeBytes base 446 e0).length = 512 := by
    rw [placeBytes_length]; omega
  have s2 := set_bytes_eq_placeBytes (placeBytes base 446 e0) 462 e1 (by omega)
  have hl2 : (placeBytes (placeBytes base 446 e0) 462 e1).length = 512 := by
    rw [placeBytes_length]; omega
  have s3 := set_bytes_eq_placeBytes
    (placeBytes (placeBytes base 446 e0) 462 e1) 478 e2 (by omega)
  have hl3 : (placeBytes (placeBytes (placeBytes base 446 e0) 462 e1)
      478 e2).length = 512 := by
    rw [placeBytes_length]; omega
  have s4 := set_bytes_eq_placeBytes
    (placeBytes (placeBytes (placeBytes base 446 e0) 462 e1) 478 e2) 494 e3
    (by omega)
  rw [s1, s2, s3, s4]

theorem build_mbr_a_canon (m : MemoryMap) :
    build_mbr_a m =
      placeBytes (placeBytes (placeBytes (placeBytes mbr_init
        446 (partition_entry m.rootfs_a_partition_start
          m.rootfs_a_partition_count FS_TYPE_LINUX))
        462 (partition_entry m.rootfs_b_partition_start
          m.rootfs_b_partition_count FS_TYPE_LINUX))
        478 (partition_entry m.working_partition_start
          m.working_partition_count FS_TYPE_LINUX))
        494 (partition_entry m.debug_partition_start
          m.debug_partition_count FS_TYPE_LINUX) := by
  calc build_mbr_a m
      = set_bytes (set_bytes (set_bytes (set_bytes mbr_init
          446 (partition_entry m.rootfs_a_partition_start
            m.rootfs_a_partition_count FS_TYPE_LINUX))
          462 (partition_entry m.rootfs_b_partition_start
            m.rootfs_b_partition_count FS_TYPE_LINUX))
          478 (partition_entry m.working_partition_start
            m.working_partition_count FS_TYPE_LINUX))
          494 (partition_entry m.debug_partition_start
            m.debug_partition_count FS_TYPE_LINUX) := rfl
    _ = _ := quad_canon mbr_init _ _ _ _ mbr_init_length rfl rfl rfl rfl

theorem build_mbr_b_canon (m : MemoryMap) :
    build_mbr_b m =
      placeBytes (placeBytes (placeBytes (placeBytes mbr_init
        446 (partition_entry m.rootfs_b_partition_start
          m.rootfs_b_partition_count FS_TYPE_LINUX))
        462 (partition_entry m.rootfs_a_partition_start
          m.rootfs_a_partition_count FS_TYPE_LINUX))
        478 (partition_entry m.working_partition_start
          m.working_partition_count FS_TYPE_LINUX))
        494 (partition_entry m.debug_partition_start
          m.debug_partition_count FS_TYPE_LINUX) := by
  calc build_mbr_b m
      = set_bytes (set_bytes (set_bytes (set_bytes mbr_init
          446 (partition_entry m.rootfs_b_partition_start
            m.rootfs_b_partition_count FS_TYPE_LINUX))
          462 (partition_entry m.rootfs_a_partition_start
            m.rootfs_a_partition_count FS_TYPE_LINUX))
          478 (partition_entry m.working_partition_start
            m.working_partition_count FS_TYPE_LINUX))
          494 (partition_entry m.debug_partition_start
            m.debug_partition_count FS_TYPE_LINUX) := rfl
    _ = _ := quad_canon mbr_init _ _ _ _ mbr_init_length rfl rfl rfl rfl

theorem build_mbr_a_length (m : MemoryMap) : (build_mbr_a m).length = 512 := by
  simp only [build_mbr_a_canon, placeBytes_length, partition_entry_length,
    mbr_init_length]
  omega

theorem build_mbr_b_length (m : MemoryMap) : (build_mbr_b m).length = 512 := by
  simp only [build_mbr_b_canon, placeBytes_length, partition_entry_length,
    mbr_init_length]
  omega
set_option maxRecDepth 8000 in
/-- C1: the spec says `place` raises a CapacityError exactly when
`len(contents) > block_count * 512`, regardless of the block offset; the code
instead compares `len(contents)` against the absolute end
`(block_offset + block_count) * 512`, so 1024 bytes are accepted into a
one-block slot at block offset 1. -/
theorem c1_capacity_check_uses_absolute_end :
    1 * BLOCK_SIZE < (List.replicate 1024 0).length ∧
    (locate [] 1 1 (List.replicate 1024 0)).isOk = true := by
  constructor
  · simp only [List.length_replicate, BLOCK_SIZE]
    omega
  · rfl


/-- C2: a placement within the declared capacity succeeds; the written slice
equals the contents, the buffer is zero-extended exactly to the write's end,
its length never decreases, and every pre-existing byte outside the written
range is unchanged. -/
theorem c2_place_within_capacity (memory : List Nat)
    (block_offset block_count : Nat) (contents : List Nat)
    (h : contents.length ≤ block_count * BLOCK_SIZE) :
    ∃ out, locate memory block_offset block_count contents = Except.ok out ∧
      (out.drop (block_offset * BLOCK_SIZE)).take contents.length = contents ∧
      out.length = max memory.length (block_offset * BLOCK_SIZE + contents.length) ∧
      memory.length ≤ out.length ∧
      (∀ i, i < memory.length →
        (i < block_offset * BLOCK_SIZE ∨
          block_offset * BLOCK_SIZE + contents.length ≤ i) →
        out.getD i 0 = memory.getD i 0) ∧
      (∀ i, memory.length ≤ i → i < out.length →
        (i < block_offset * BLOCK_SIZE ∨
          block_offset * BLOCK_SIZE + contents.length ≤ i) →
        out.getD i 0 = 0) := by
  refine ⟨placeBytes memory (block_offset * BLOCK_SIZE) contents,
    locate_ok memory block_offset block_count contents h,
    placeBytes_slice memory (block_offset * BLOCK_SIZE) contents,
    placeBytes_length memory (block_offset * BLOCK_SIZE) contents,
    by rw [placeBytes_length]; omega, ?_, ?_⟩
  · intro i hi hside
    rw [placeBytes_getD, if_neg (by omega)]
  · intro i hi hlt hside
    rw [placeBytes_getD, if_neg (by omega), List.getD_eq_default]
    omega

/-- C2 witness: placing one byte in the second block of a three-byte buffer. -/
theorem c2_place_within_capacity_witness :
    ([9] : List Nat).length ≤ 1 * BLOCK_SIZE ∧
    (locate [1, 2, 3] 1 1 [9]).isOk = true := by
  refine ⟨by simp [BLOCK_SIZE], ?_⟩
  obtain ⟨out, hok, _⟩ :=
    c2_place_within_capacity [1, 2, 3] 1 1 [9] (by simp [BLOCK_SIZE])
  rw [hok]
  rfl

/-- C10: for a positive block offset and contents longer than the declared
capacity but no longer than the absolute end, `locate` raises no error; the
slice range is capped at `(block_offset + block_count) * 512`, and splicing
the longer contents into it inserts `len - block_count * 512` extra bytes,
growing the buffer beyond the slot end and shifting toward higher offsets
every pre-existing byte that sat at or beyond the slot end. -/
theorem c10_capacity_overflow_inserts (memory : List Nat)
    (block_offset block_count : Nat) (contents : List Nat)
    (_hoff : 0 < block_offset)
    (hlow : block_count * BLOCK_SIZE < contents.length)
    (hhigh : contents.length ≤ (block_offset + block_count) * BLOCK_SIZE) :
    ∃ out, locate memory block_offset block_count contents = Except.ok out ∧
      out.length = max memory.length ((block_offset + block_count) * BLOCK_SIZE) +
        (contents.length - block_count * BLOCK_SIZE) ∧
      (block_offset + block_count) * BLOCK_SIZE < out.length ∧
      (out.drop (block_offset * BLOCK_SIZE)).take contents.length = contents ∧
      ∀ i, (block_offset + block_count) * BLOCK_SIZE ≤ i → i < memory.length →
        out.getD (i + (contents.length - block_count * BLOCK_SIZE)) 0 =
          memory.getD i 0 := by
  have hd : (block_offset + block_count) * BLOCK_SIZE =
      block_offset * BLOCK_SIZE + block_count * BLOCK_SIZE := Nat.add_mul _ _ _
  have hg := growTo_length memory
    (block_offset * BLOCK_SIZE + block_count * BLOCK_SIZE)
  have htake : (List.take (block_offset * BLOCK_SIZE)
      (growTo memory (block_offset * BLOCK_SIZE + block_count * BLOCK_SIZE))).length =
      block_offset * BLOCK_SIZE := by
    simp; omega
  refine ⟨_, locate_overflow memory block_offset block_count contents hlow
    (by omega), ?_, ?_, ?_, ?_⟩
  · simp only [List.length_append, htake, List.length_drop, hg, hd]
    omega
  · simp only [List.length_append, htake, List.length_drop, hg, hd]
    omega
  · rw [List.append_assoc, List.drop_left' htake, List.take_left' rfl]
  · intro i hi hmem
    rw [List.getD_eq_getElem?_getD,
      List.getElem?_append_right (by rw [List.length_append, htake]; omega),
      List.length_append, htake, List.getElem?_drop]
    have harith : block_offset * BLOCK_SIZE + block_count * BLOCK_SIZE +
        (i + (contents.length - block_count * BLOCK_SIZE) -
          (block_offset * BLOCK_SIZE + contents.length)) = i := by omega
    rw [harith, ← List.getD_eq_getElem?_getD, growTo_getD]

set_option maxRecDepth 8000 in
/-- C10 witness: 700 bytes into a one-block slot at block offset 1 inside a
1030-byte buffer. -/
theorem c10_capacity_overflow_inserts_witness :
    (0 < 1 ∧ 1 * BLOCK_SIZE < (List.replicate 700 7).length ∧
      (List.replicate 700 7).length ≤ (1 + 1) * BLOCK_SIZE) ∧
    (locate (List.replicate 1030 3) 1 1 (List.replicate 700 7)).isOk = true := by
  refine ⟨⟨by omega, by simp only [List.length_replicate, BLOCK_SIZE]; omega,
    by simp only [List.length_replicate, BLOCK_SIZE]; omega⟩, ?_⟩
  obtain ⟨out, hok, _⟩ :=
    c10_capacity_overflow_inserts (List.replicate 1030 3) 1 1
      (List.replicate 700 7) (by omega)
      (by simp only [List.length_replicate, BLOCK_SIZE]; omega)
      (by simp only [List.length_replicate, BLOCK_SIZE]; omega)
  rw [hok]
  rfl

/-- C3: with readable input binaries, the complete device image is exactly the
left-to-right fold of `locate` over the spec's placement schedule, starting
from the empty buffer: A-variant partition table at block 0 with a one-block
limit, UBL descriptor block, U-Boot descriptor block, all-zero environment
block, UBL binary, U-Boot binary, root filesystem, then the 32-block zero
stubs at the debug and working partition offsets. -/
theorem c3_complete_img_placement_order (m : MemoryMap) (bl : Bool) (v : String)
    (ac : Option String) (ublFile ubootFile rootfsFile : List Nat) :
    build_complete_img m
        ⟨bl, v, ac, Except.ok ublFile, Except.ok ubootFile, Except.ok rootfsFile⟩ =
      (complete_img_placements m ublFile ubootFile rootfsFile).foldlM
        (fun memory p => locate memory p.1 p.2.1 p.2.2) [] := by
  have hok : ∀ (a : List Nat) (f : List Nat → Except String (List Nat)),
      Except.ok a >>= f = f a := fun _ _ => rfl
  simp only [build_complete_img, build_boot_img, complete_img_placements,
    List.foldlM, bind_assoc, pure_bind, bind_pure, hok]

theorem and255_eq (x : Nat) : x &&& 255 = x % 256 := by
  have h := Nat.and_pow_two_sub_one_eq_mod x 8
  norm_num at h
  exact h

theorem quad_entries (base e0 e1 e2 e3 : List Nat) (hb : base.length = 512)
    (h0 : e0.length = 16) (h1 : e1.length = 16) (h2 : e2.length = 16)
    (h3 : e3.length = 16) :
    (((placeBytes (placeBytes (placeBytes (placeBytes base 446 e0) 462 e1)
        478 e2) 494 e3).drop 446).take 16 = e0 ∧
      ((placeBytes (placeBytes (placeBytes (placeBytes base 446 e0) 462 e1)
        478 e2) 494 e3).drop 462).take 16 = e1 ∧
      ((placeBytes (placeBytes (placeBytes (placeBytes base 446 e0) 462 e1)
        478 e2) 494 e3).drop 478).take 16 = e2 ∧
      ((placeBytes (placeBytes (placeBytes (placeBytes base 446 e0) 462 e1)
        478 e2) 494 e3).drop 494).take 16 = e3) := by
  have hl1 : (placeBytes base 446 e0).length = 512 := by
    rw [placeBytes_length]; omega
  have hl2 : (placeBytes (placeBytes base 446 e0) 462 e1).length = 512 := by
    rw [placeBytes_length]; omega
  have hl3 : (placeBytes (placeBytes (placeBytes base 446 e0) 462 e1)
      478 e2).length = 512 := by
    rw [placeBytes_length]; omega
  refine ⟨?_, ?_, ?_, ?_⟩
  · rw [placeBytes_slice_frame _ _ _ _ _ (by omega) (by omega),
      placeBytes_slice_frame _ _ _ _ _ (by omega) (by omega),
      placeBytes_slice_frame _ _ _ _ _ (by omega) (by omega),
      placeBytes_slice_len _ _ _ _ h0]
  · rw [placeBytes_slice_frame _ _ _ _ _ (by omega) (by omega),
      placeBytes_slice_frame _ _ _ _ _ (by omega) (by omega),
      placeBytes_slice_len _ _ _ _ h1]
  · rw [placeBytes_slice_frame _ _ _ _ _ (by omega) (by omega),
      placeBytes_slice_len _ _ _ _ h2]
  · rw [placeBytes_slice_len _ _ _ _ h3]

theorem quad_getD_frame (base e0 e1 e2 e3 : List Nat)
    (h0 : e0.length = 16) (h1 : e1.length = 16) (h2 : e2.length = 16)
    (h3 : e3.length = 16) (i : Nat) (hout : i < 446 ∨ 510 ≤ i) :
    (placeBytes (placeBytes (placeBytes (placeBytes base 446 e0) 462 e1)
      478 e2) 494 e3).getD i 0 = base.getD i 0 := by
  simp only [placeBytes_getD, h0, h1, h2, h3]
  iterate 4 rw [if_neg (by omega)]

set_option maxRecDepth 4000 in
theorem mbr_init_bytes :
    mbr_init.getD 440 0 = 0x11 ∧ mbr_init.getD 441 0 = 0x22 ∧
    mbr_init.getD 442 0 = 0x33 ∧ mbr_init.getD 443 0 = 0x44 ∧
    mbr_init.getD 510 0 = 0x55 ∧ mbr_init.getD 511 0 = 0xaa := by
  refine ⟨rfl, rfl, rfl, rfl, rfl, rfl⟩

set_option maxRecDepth 8000 in
/-- C4: `build_mbr_a` and `build_mbr_b` both return 512-byte records that are
byte-identical except that the first two 16-byte partition entries (at
offsets 446 and 462) are swapped; both carry the disk-identifier bytes
0x11 0x22 0x33 0x44 at 440..443 and the signature 0x55 0xAA at 510..511;
each partition entry sits at offset `446 + 16 * index` and carries boot flag
0 and little-endian 32-bit start-LBA and sector-count fields. -/
theorem c4_mbr_variants (m : MemoryMap) :
    (build_mbr_a m).length = 512 ∧ (build_mbr_b m).length = 512 ∧
    (build_mbr_a m).take 446 = (build_mbr_b m).take 446 ∧
    ((build_mbr_a m).drop 446).take 16 = ((build_mbr_b m).drop 462).take 16 ∧
    ((build_mbr_a m).drop 462).take 16 = ((build_mbr_b m).drop 446).take 16 ∧
    (build_mbr_a m).drop 478 = (build_mbr_b m).drop 478 ∧
    ((build_mbr_a m).getD 440 0 = 0x11 ∧ (build_mbr_a m).getD 441 0 = 0x22 ∧
      (build_mbr_a m).getD 442 0 = 0x33 ∧ (build_mbr_a m).getD 443 0 = 0x44 ∧
      (build_mbr_a m).getD 510 0 = 0x55 ∧ (build_mbr_a m).getD 511 0 = 0xaa) ∧
    ((build_mbr_b m).getD 440 0 = 0x11 ∧ (build_mbr_b m).getD 441 0 = 0x22 ∧
      (build_mbr_b m).getD 442 0 = 0x33 ∧ (build_mbr_b m).getD 443 0 = 0x44 ∧
      (build_mbr_b m).getD 510 0 = 0x55 ∧ (build_mbr_b m).getD 511 0 = 0xaa) ∧
    (((build_mbr_a m).drop (446 + 16 * 0)).take 16 =
        partition_entry m.rootfs_a_partition_start m.rootfs_a_partition_count
          FS_TYPE_LINUX ∧
      ((build_mbr_a m).drop (446 + 16 * 1)).take 16 =
        partition_entry m.rootfs_b_partition_start m.rootfs_b_partition_count
          FS_TYPE_LINUX ∧
      ((build_mbr_a m).drop (446 + 16 * 2)).take 16 =
        partition_entry m.working_partition_start m.working_partition_count
          FS_TYPE_LINUX ∧
      ((build_mbr_a m).drop (446 + 16 * 3)).take 16 =
        partition_entry m.debug_partition_start m.debug_partition_count
          FS_TYPE_LINUX) ∧
    (((build_mbr_b m).drop (446 + 16 * 0)).take 16 =
        partition_entry m.rootfs_b_partition_start m.rootfs_b_partition_count
          FS_TYPE_LINUX ∧
      ((build_mbr_b m).drop (446 + 16 * 1)).take 16 =
        partition_entry m.rootfs_a_partition_start m.rootfs_a_partition_count
          FS_TYPE_LINUX ∧
      ((build_mbr_b m).drop (446 + 16 * 2)).take 16 =
        partition_entry m.working_partition_start m.working_partition_count
          FS_TYPE_LINUX ∧
      ((build_mbr_b m).drop (446 + 16 * 3)).take 16 =
        partition_entry m.debug_partition_start m.debug_partition_count
          FS_TYPE_LINUX) ∧
    ∀ s c t : Nat, (partition_entry s c t).getD 0 0 = 0 ∧
      ((partition_entry s c t).drop 8).take 4 = pack32 s ∧
      ((partition_entry s c t).drop 12).take 4 = pack32 c := by
  obtain ⟨ha0, ha1, ha2, ha3⟩ := quad_entries mbr_init
    (partition_entry m.rootfs_a_partition_start m.rootfs_a_partition_count
      FS_TYPE_LINUX)
    (partition_entry m.rootfs_b_partition_start m.rootfs_b_partition_count
      FS_TYPE_LINUX)
    (partition_entry m.working_partition_start m.working_partition_count
      FS_TYPE_LINUX)
    (partition_entry m.debug_partition_start m.debug_partition_count
      FS_TYPE_LINUX) mbr_init_length rfl rfl rfl rfl
  obtain ⟨hb0, hb1, hb2, hb3⟩ := quad_entries mbr_init
    (partition_entry m.rootfs_b_partition_start m.rootfs_b_partition_count
      FS_TYPE_LINUX)
    (partition_entry m.rootfs_a_partition_start m.rootfs_a_partition_count
      FS_TYPE_LINUX)
    (partition_entry m.working_partition_start m.working_partition_count
      FS_TYPE_LINUX)
    (partition_entry m.debug_partition_start m.debug_partition_count
      FS_TYPE_LINUX) mbr_init_length rfl rfl rfl rfl
  rw [← build_mbr_a_canon] at ha0 ha1 ha2 ha3
  rw [← build_mbr_b_canon] at hb0 hb1 hb2 hb3
  have hfa : ∀ i, i < 446 ∨ 510 ≤ i →
      (build_mbr_a m).getD i 0 = mbr_init.getD i 0 := by
    intro i hi
    rw [build_mbr_a_canon]
    exact quad_getD_frame mbr_init _ _ _ _ (partition_entry_length _ _ _)
      (partition_entry_length _ _ _) (partition_entry_length _ _ _)
      (partition_entry_length _ _ _) i hi
  have hfb : ∀ i, i < 446 ∨ 510 ≤ i →
      (build_mbr_b m).getD i 0 = mbr_init.getD i 0 := by
    intro i hi
    rw [build_mbr_b_canon]
    exact quad_getD_frame mbr_init _ _ _ _ (partition_entry_length _ _ _)
      (partition_entry_length _ _ _) (partition_entry_length _ _ _)
      (partition_entry_length _ _ _) i hi
  obtain ⟨i11, i22, i33, i44, i55, iaa⟩ := mbr_init_bytes
  refine ⟨build_mbr_a_length m, build_mbr_b_length m, ?_,
    ha0.trans hb1.symm, ha1.trans hb0.symm, ?_,
    ⟨(hfa 440 (by omega)).trans i11, (hfa 441 (by omega)).trans i22,
      (hfa 442 (by omega)).trans i33, (hfa 443 (by omega)).trans i44,
      (hfa 510 (by omega)).trans i55, (hfa 511 (by omega)).trans iaa⟩,
    ⟨(hfb 440 (by omega)).trans i11, (hfb 441 (by omega)).trans i22,
      (hfb 442 (by omega)).trans i33, (hfb 443 (by omega)).trans i44,
      (hfb 510 (by omega)).trans i55, (hfb 511 (by omega)).trans iaa⟩,
    ⟨ha0, ha1, ha2, ha3⟩, ⟨hb0, hb1, hb2, hb3⟩, ?_⟩
  · apply take_congr _ _ 446 (by rw [build_mbr_a_length]; omega)
      (by rw [build_mbr_b_length]; omega)
    intro i hi
    exact (hfa i (by omega)).trans (hfb i (by omega)).symm
  · apply drop_congr _ _ 478 (by rw [build_mbr_a_length, build_mbr_b_length])
    intro i hi
    simp only [build_mbr_a_canon, build_mbr_b_canon, placeBytes_getD,
      partition_entry_length]
    split_ifs <;> first | rfl | omega
  · intro s c t
    refine ⟨rfl, ?_, ?_⟩
    · show [s &&& 0xff, (s >>> 8) &&& 0xff, (s >>> 16) &&& 0xff,
        (s >>> 24) &&& 0xff] = pack32 s
      simp [pack32, and255_eq, Nat.shiftRight_eq_div_pow]
    · show [c &&& 0xff, (c >>> 8) &&& 0xff, (c >>> 16) &&& 0xff,
        (c >>> 24) &&& 0xff] = pack32 c
      simp [pack32, and255_eq, Nat.shiftRight_eq_div_pow]

set_option maxRecDepth 4000 in
theorem build_rbl_descriptor_length (a b c d e : Nat) :
    (build_rbl_descriptor a b c d e).length = 128 * 4 := by rfl

set_option maxRecDepth 4000 in
/-- C5: each descriptor block is one fixed-size record (the five fields as
little-endian 32-bit words, zero-padded to the 512-byte slot), replicated
contiguously so that a region configured for N blocks holds exactly
`N * 512 / slot_size` copies, each beginning with the configured magic
number, and the block is exactly `N * 512` bytes long. -/
theorem c5_descriptor_replication (m : MemoryMap) :
    ((build_ubl_descriptor_block m).length = m.ubl_sig_count * BLOCK_SIZE ∧
      build_rbl_descriptor UBL_MAGIC_NUM UBL_ENTRY_POINT m.ubl_count
          m.ubl_start UBL_LOAD_ADDRESS =
        pack32 UBL_MAGIC_NUM ++ pack32 UBL_ENTRY_POINT ++ pack32 m.ubl_count ++
          pack32 m.ubl_start ++ pack32 UBL_LOAD_ADDRESS ++
          List.replicate (128 * 4 - 20) 0 ∧
      ∀ i, i < m.ubl_sig_count * BLOCK_SIZE / (128 * 4) →
        ((build_ubl_descriptor_block m).drop (i * (128 * 4))).take (128 * 4) =
          build_rbl_descriptor UBL_MAGIC_NUM UBL_ENTRY_POINT m.ubl_count
            m.ubl_start UBL_LOAD_ADDRESS ∧
        ((build_ubl_descriptor_block m).drop (i * (128 * 4))).take 4 =
          pack32 UBL_MAGIC_NUM) ∧
    ((build_uboot_descriptor_block m).length = m.uboot_sig_count * BLOCK_SIZE ∧
      build_rbl_descriptor UBOOT_MAGIC_NUM UBOOT_ENTRY_POINT m.uboot_count
          m.uboot_start UBOOT_LOAD_ADDRESS =
        pack32 UBOOT_MAGIC_NUM ++ pack32 UBOOT_ENTRY_POINT ++
          pack32 m.uboot_count ++ pack32 m.uboot_start ++
          pack32 UBOOT_LOAD_ADDRESS ++ List.replicate (128 * 4 - 20) 0 ∧
      ∀ i, i < m.uboot_sig_count * BLOCK_SIZE / (128 * 4) →
        ((build_uboot_descriptor_block m).drop (i * (128 * 4))).take (128 * 4) =
          build_rbl_descriptor UBOOT_MAGIC_NUM UBOOT_ENTRY_POINT m.uboot_count
            m.uboot_start UBOOT_LOAD_ADDRESS ∧
        ((build_uboot_descriptor_block m).drop (i * (128 * 4))).take 4 =
          pack32 UBOOT_MAGIC_NUM) := by
  have hdu := build_rbl_descriptor_length UBL_MAGIC_NUM UBL_ENTRY_POINT
    m.ubl_count m.ubl_start UBL_LOAD_ADDRESS
  have hdb := build_rbl_descriptor_length UBOOT_MAGIC_NUM UBOOT_ENTRY_POINT
    m.uboot_count m.uboot_start UBOOT_LOAD_ADDRESS
  have hNu : m.ubl_sig_count * BLOCK_SIZE / (128 * 4) = m.ubl_sig_count := by
    simp only [BLOCK_SIZE]
    omega
  have hNb : m.uboot_sig_count * BLOCK_SIZE / (128 * 4) = m.uboot_sig_count := by
    simp only [BLOCK_SIZE]
    omega
  refine ⟨⟨?_, rfl, ?_⟩, ?_, rfl, ?_⟩
  · show (repBytes _ m.ubl_sig_count).length = _
    rw [repBytes_length, hdu]
    norm_num [BLOCK_SIZE]
  · intro i hi
    rw [hNu] at hi
    have hslice := repBytes_slice (build_rbl_descriptor UBL_MAGIC_NUM
      UBL_ENTRY_POINT m.ubl_count m.ubl_start UBL_LOAD_ADDRESS)
      m.ubl_sig_count i hi
    rw [hdu] at hslice
    refine ⟨hslice, ?_⟩
    have h4 := congrArg (List.take 4) hslice
    rw [List.take_take] at h4
    norm_num at h4
    exact h4.trans rfl
  · show (repBytes _ m.uboot_sig_count).length = _
    rw [repBytes_length, hdb]
    norm_num [BLOCK_SIZE]
  · intro i hi
    rw [hNb] at hi
    have hslice := repBytes_slice (build_rbl_descriptor UBOOT_MAGIC_NUM
      UBOOT_ENTRY_POINT m.uboot_count m.uboot_start UBOOT_LOAD_ADDRESS)
      m.uboot_sig_count i hi
    rw [hdb] at hslice
    refine ⟨hslice, ?_⟩
    have h4 := congrArg (List.take 4) hslice
    rw [List.take_take] at h4
    norm_num at h4
    exact h4.trans rfl

/-- C5 witness: the second copy in the scenario map's two-block UBL
descriptor region starts with the UBL magic number. -/
theorem c5_descriptor_replication_witness :
    1 < scenario_map.ubl_sig_count * BLOCK_SIZE / (128 * 4) ∧
    ((build_ubl_descriptor_block scenario_map).drop (1 * (128 * 4))).take 4 =
      pack32 UBL_MAGIC_NUM := by
  refine ⟨by norm_num [scenario_map, BLOCK_SIZE], ?_⟩
  exact ((c5_descriptor_replication scenario_map).1.2.2 1
    (by norm_num [scenario_map, BLOCK_SIZE])).2

set_option maxRecDepth 100000 in
theorem hi_bits_lemma : ∀ c < 1024, (c >>> 2) &&& 192 = c / 256 * 64 := by decide

set_option maxRecDepth 100000 in
theorem or64_lemma : ∀ k < 4, ∀ s < 64, k * 64 ||| s = k * 64 + s := by decide

set_option maxRecDepth 100000 in
theorem and192_lemma : ∀ k < 4, ∀ s < 64, (k * 64 + s) &&& 192 = k * 64 := by
  decide

set_option maxRecDepth 100000 in
theorem and63_lemma : ∀ k < 4, ∀ s < 64, (k * 64 + s) &&& 63 = s := by decide

set_option maxRecDepth 100000 in
theorem or256_lemma : ∀ k < 4, ∀ b < 256, (k * 64) <<< 2 ||| b = k * 256 + b := by
  decide

/-- C6: the geometry translator satisfies `head < 255` and
`1 ≤ sector ≤ 63` for every non-negative linear block address, and for every
address below `63 * 255 * 1024` the LBA reconstructed from the CHS bytes as
emitted into a partition entry round-trips. -/
theorem c6_chs_translation :
    (∀ x : Nat, lba_to_head x < 255 ∧ 1 ≤ lba_to_sector x ∧
      lba_to_sector x ≤ 63) ∧
    ∀ x : Nat, x < 63 * 255 * 1024 →
      chs_reconstruct_lba (lba_to_head x) (chs_pack_cs x)
        (chs_pack_cyl_low x) = x := by
  constructor
  · intro x
    simp only [lba_to_head, lba_to_sector, STORAGE_NUM_SECTORS,
      STORAGE_NUM_HEADS]
    omega
  · intro x hx
    simp only [lba_to_head, lba_to_sector, lba_to_cylinder, chs_pack_cs,
      chs_pack_cyl_low, chs_reconstruct_lba, STORAGE_NUM_SECTORS,
      STORAGE_NUM_HEADS]
    have hc : x / (63 * 255) < 1024 := by omega
    have hs : x % 63 + 1 < 64 := by omega
    have hk : x / (63 * 255) / 256 < 4 := by omega
    rw [hi_bits_lemma _ hc, or64_lemma _ hk _ hs, and192_lemma _ hk _ hs,
      and63_lemma _ hk _ hs, and255_eq,
      or256_lemma _ hk _ (by omega : x / (63 * 255) % 256 < 256)]
    omega

/-- C6 witness: the round trip at the concrete address 1234567. -/
theorem c6_chs_translation_witness :
    1234567 < 63 * 255 * 1024 ∧
    chs_reconstruct_lba (lba_to_head 1234567) (chs_pack_cs 1234567)
      (chs_pack_cyl_low 1234567) = 1234567 := by
  exact ⟨by norm_num, c6_chs_translation.2 1234567 (by norm_num)⟩

/-- C8: a successfully produced firmware package contains exactly the five
entries `install.sh`, `data/mbr-a.img`, `data/mbr-b.img`, `data/boot.img`,
`data/rootfs.img`, and for each data artifact the size and SHA-1 digest
substituted into the rendered install.sh equal the byte length of that
archive entry and the digest recomputed over that entry's exact bytes. -/
theorem c8_package_contents (sha1 : List Nat → String) (m : MemoryMap)
    (args : Args) (entries : List (String × ZipEntry))
    (h : create_firmware_package sha1 m args = Except.ok entries) :
    ∃ script mbrA mbrB rootfs bootimg,
      entries = [("install.sh", ZipEntry.script script),
        ("data/mbr-a.img", ZipEntry.data mbrA),
        ("data/mbr-b.img", ZipEntry.data mbrB),
        ("data/rootfs.img", ZipEntry.data rootfs),
        ("data/boot.img", ZipEntry.data bootimg)] ∧
      (entries.map Prod.fst).Perm
        ["install.sh", "data/mbr-a.img", "data/mbr-b.img", "data/boot.img",
         "data/rootfs.img"] ∧
      script.mbr_a_img_size = mbrA.length ∧ script.mbr_a_img_sha1 = sha1 mbrA ∧
      script.mbr_b_img_size = mbrB.length ∧ script.mbr_b_img_sha1 = sha1 mbrB ∧
      script.boot_img_size = bootimg.length ∧
      script.boot_img_sha1 = sha1 bootimg ∧
      script.rootfs_img_size = rootfs.length ∧
      script.rootfs_img_sha1 = sha1 rootfs := by
  have hok : ∀ (α β : Type) (a : α) (f : α → Except String β),
      (Except.ok a >>= f) = f a := fun _ _ _ _ => rfl
  unfold create_firmware_package at h
  cases hb : build_boot_img m args with
  | error e =>
    rw [hb] at h
    cases h
  | ok bootimg =>
    rw [hb, hok] at h
    cases hr : args.rootfs_file with
    | error e =>
      rw [hr] at h
      cases h
    | ok rootfs =>
      rw [hr, hok] at h
      cases h
      refine ⟨_, _, _, _, _, rfl, ?_, rfl, rfl, rfl, rfl, rfl, rfl,
        rfl, rfl⟩
      simp only [List.map_cons, List.map_nil]
      decide

set_option maxRecDepth 200000 in
set_option maxHeartbeats 1000000 in
/-- C8 witness: an empty-file package on the scenario map succeeds and has
exactly the five entry names. -/
theorem c8_package_contents_witness :
    ∃ entries, create_firmware_package (fun _ => "d") scenario_map
        ⟨false, "v", none, Except.ok [], Except.ok [], Except.ok []⟩ =
      Except.ok entries ∧
      (entries.map Prod.fst).Perm
        ["install.sh", "data/mbr-a.img", "data/mbr-b.img", "data/boot.img",
         "data/rootfs.img"] := by
  have hisok : (create_firmware_package (fun _ => "d") scenario_map
      ⟨false, "v", none, Except.ok [], Except.ok [],
        Except.ok []⟩).isOk = true := by rfl
  cases hc : create_firmware_package (fun _ => "d") scenario_map
      ⟨false, "v", none, Except.ok [], Except.ok [], Except.ok []⟩ with
  | error e =>
    rw [hc] at hisok
    cases hisok
  | ok entries =>
    obtain ⟨script, a, b, r, g, hent, hperm, _⟩ :=
      c8_package_contents _ _ _ entries hc
    exact ⟨entries, rfl, hperm⟩

/-- C9: outputs are produced only from fully successful in-memory builds: the
flat image bytes exist exactly when every placement of build_complete_img
succeeded, any placement or read error propagates, and the package is not
produced when the boot-image build or the rootfs read fails. -/
theorem c9_outputs_only_after_success (sha1 : List Nat → String)
    (m : MemoryMap) (args : Args) :
    ((∃ img, create_firmware_image m args = Except.ok img) ↔
      ∃ img, build_complete_img m args = Except.ok img) ∧
    (∀ img, create_firmware_image m args = Except.ok img →
      build_complete_img m args = Except.ok img) ∧
    ((build_boot_img m args).isOk = false ∨ (args.rootfs_file).isOk = false →
      (create_firmware_package sha1 m args).isOk = false) ∧
    (∀ e, build_complete_img m args = Except.error e →
      create_firmware_image m args = Except.error e) := by
  have hok : ∀ (α β : Type) (a : α) (f : α → Except String β),
      (Except.ok a >>= f) = f a := fun _ _ _ _ => rfl
  refine ⟨Iff.rfl, fun img h => h, ?_, fun e h => h⟩
  intro hfail
  unfold create_firmware_package
  cases hb : build_boot_img m args with
  | error e => rfl
  | ok bootimg =>
    rw [hok]
    cases hr : args.rootfs_file with
    | error e => rfl
    | ok rootfs =>
      rw [hb] at hfail
      rw [hr] at hfail
      rcases hfail with hf | hf <;> cases hf

/-- C9 witness: with an unreadable rootfs binary, no package is produced. -/
theorem c9_outputs_only_after_success_witness :
    ((build_boot_img scenario_map ⟨false, "v", none, Except.ok [],
        Except.ok [], Except.error "unreadable"⟩).isOk = false ∨
      ((⟨false, "v", none, Except.ok [], Except.ok [],
        Except.error "unreadable"⟩ : Args).rootfs_file).isOk = false) ∧
    (create_firmware_package (fun _ => "d") scenario_map
      ⟨false, "v", none, Except.ok [], Except.ok [],
        Except.error "unreadable"⟩).isOk = false := by
  refine ⟨Or.inr rfl, ?_⟩
  exact (c9_outputs_only_after_success (fun _ => "d") scenario_map
    ⟨false, "v", none, Except.ok [], Except.ok [],
      Except.error "unreadable"⟩).2.2.1 (Or.inr rfl)

theorem slice_eq_of_pointwise (x y : List Nat) (a b : Nat)
    (hx : a + b ≤ x.length) (hylen : y.length = b)
    (h : ∀ i, i < b → x.getD (a + i) 0 = y.getD i 0) :
    (x.drop a).take b = y := by
  apply List.ext_getElem
  · simp [List.length_take, List.length_drop, hylen]
    omega
  · intro n h1 h2
    have hnb : n < b := by omega
    rw [List.getElem_take, List.getElem_drop,
      ← List.getD_eq_getElem x 0 (by omega), ← List.getD_eq_getElem y 0 h2]
    exact h n hnb

set_option maxRecDepth 100000 in
set_option maxHeartbeats 1000000 in
/-- C7: in the end-to-end scenario (the spec's memory-map values, loader
files of 2048 and 4096 bytes, a 64000-byte root filesystem) the flat image
is produced; its length is at least
`(rootfs_a_partition_start + rootfs_a_partition_count) * 512`, bytes 510-511
carry the MBR signature 0x55 0xAA, and the 2048 bytes at `ubl_start * 512`
are exactly the first loader file. -/
theorem c7_end_to_end_scenario (bl : Bool) (v : String) (ac : Option String)
    (ubl uboot rootfs : List Nat) (hu : ubl.length = 2048)
    (hb : uboot.length = 4096) (hr : rootfs.length = 64000) :
    ∃ img, build_complete_img scenario_map
        ⟨bl, v, ac, Except.ok ubl, Except.ok uboot, Except.ok rootfs⟩ =
      Except.ok img ∧
      (scenario_map.rootfs_a_partition_start +
        scenario_map.rootfs_a_partition_count) * BLOCK_SIZE ≤ img.length ∧
      img.getD 510 0 = 0x55 ∧ img.getD 511 0 = 0xaa ∧
      (img.drop (scenario_map.ubl_start * BLOCK_SIZE)).take 2048 = ubl := by
  have hok : ∀ (α β : Type) (a : α) (f : α → Except String β),
      (Except.ok a >>= f) = f a := fun _ _ _ _ => rfl
  have hA := build_mbr_a_length scenario_map
  have hUd : (build_ubl_descriptor_block scenario_map).length = 1024 := by
    rw [build_ubl_descriptor_block, repBytes_length, build_rbl_descriptor_length]
    norm_num [scenario_map]
  have hBd : (build_uboot_descriptor_block scenario_map).length = 1024 := by
    rw [build_uboot_descriptor_block, repBytes_length, build_rbl_descriptor_length]
    norm_num [scenario_map]
  have hEnv : (build_uboot_environment_block scenario_map).length = 1024 := by
    rw [build_uboot_environment_block, List.length_replicate]
    norm_num [scenario_map, BLOCK_SIZE]
  have p1 : scenario_map.ubl_start = 1 := rfl
  have p2 : scenario_map.ubl_sig_start = 11 := rfl
  have p3 : scenario_map.uboot_sig_start = 13 := rfl
  have p4 : scenario_map.uboot_env_start = 15 := rfl
  have p5 : scenario_map.uboot_start = 20 := rfl
  have p6 : scenario_map.rootfs_a_partition_start = 100 := rfl
  have p7 : scenario_map.rootfs_a_partition_count = 1000 := rfl
  have p8 : scenario_map.debug_partition_start = 2600 := rfl
  have p9 : scenario_map.working_partition_start = 2100 := rfl
  have hc1 : (build_mbr_a scenario_map).length ≤ 1 * BLOCK_SIZE := by
    rw [hA]; norm_num [BLOCK_SIZE]
  have hc2 : (build_ubl_descriptor_block scenario_map).length ≤
      scenario_map.ubl_sig_count * BLOCK_SIZE := by
    rw [hUd]; norm_num [scenario_map, BLOCK_SIZE]
  have hc3 : (build_uboot_descriptor_block scenario_map).length ≤
      scenario_map.uboot_sig_count * BLOCK_SIZE := by
    rw [hBd]; norm_num [scenario_map, BLOCK_SIZE]
  have hc4 : (build_uboot_environment_block scenario_map).length ≤
      scenario_map.uboot_env_count * BLOCK_SIZE := by
    rw [hEnv]; norm_num [scenario_map, BLOCK_SIZE]
  have hc5 : ubl.length ≤ scenario_map.ubl_count * BLOCK_SIZE := by
    rw [hu]; norm_num [scenario_map, BLOCK_SIZE]
  have hc6 : uboot.length ≤ scenario_map.uboot_count * BLOCK_SIZE := by
    rw [hb]; norm_num [scenario_map, BLOCK_SIZE]
  have hc7 : rootfs.length ≤ scenario_map.rootfs_a_partition_count * BLOCK_SIZE := by
    rw [hr]; norm_num [scenario_map, BLOCK_SIZE]
  have hc8 : (List.replicate (32 * BLOCK_SIZE) (0 : Nat)).length ≤
      scenario_map.debug_partition_count * BLOCK_SIZE := by
    rw [List.length_replicate]; norm_num [scenario_map, BLOCK_SIZE]
  have hc9 : (List.replicate (32 * BLOCK_SIZE) (0 : Nat)).length ≤
      scenario_map.working_partition_count * BLOCK_SIZE := by
    rw [List.length_replicate]; norm_num [scenario_map, BLOCK_SIZE]
  simp only [build_complete_img, build_boot_img, hok, locate_ok, hc1, hc2,
    hc3, hc4, hc5, hc6, hc7, hc8, hc9]
  refine ⟨_, rfl, ?_, ?_, ?_, ?_⟩
  · simp only [placeBytes_length, hA, hUd, hBd, hEnv, hu, hb, hr,
      List.length_replicate, List.length_nil, p1, p2, p3, p4, p5, p6, p7, p8,
      p9, BLOCK_SIZE]
    omega
  · simp only [placeBytes_getD, hA, hUd, hBd, hEnv, hu, hb, hr,
      List.length_replicate, p1, p2, p3, p4, p5, p6, p7, p8, p9, BLOCK_SIZE]
    iterate 8 rw [if_neg (by omega)]
    rw [if_pos (by omega)]
    rfl
  · simp only [placeBytes_getD, hA, hUd, hBd, hEnv, hu, hb, hr,
      List.length_replicate, p1, p2, p3, p4, p5, p6, p7, p8, p9, BLOCK_SIZE]
    iterate 8 rw [if_neg (by omega)]
    rw [if_pos (by omega)]
    rfl
  · apply slice_eq_of_pointwise _ _ _ _ ?hx hu ?hpt
    case hx =>
      simp only [placeBytes_length, hA, hUd, hBd, hEnv, hu, hb, hr,
        List.length_replicate, List.length_nil, p1, BLOCK_SIZE]
      omega
    case hpt =>
      intro i hi
      simp only [placeBytes_getD, hA, hUd, hBd, hEnv, hu, hb, hr,
        List.length_replicate, p1, p2, p3, p4, p5, p6, p7, p8, p9, BLOCK_SIZE]
      iterate 4 rw [if_neg (by omega)]
      rw [if_pos (by omega)]
      have harith : 1 * 512 + i - 1 * 512 = i := by omega
      rw [harith]

/-- C7 witness: the scenario at concrete all-sevens input files. -/
theorem c7_end_to_end_scenario_witness :
    (List.replicate 2048 (7 : Nat)).length = 2048 ∧
    (List.replicate 4096 (7 : Nat)).length = 4096 ∧
    (List.replicate 64000 (7 : Nat)).length = 64000 ∧
    ∃ img, build_complete_img scenario_map
        ⟨false, "v", none, Except.ok (List.replicate 2048 7),
          Except.ok (List.replicate 4096 7),
          Except.ok (List.replicate 64000 7)⟩ =
      Except.ok img ∧
      (scenario_map.rootfs_a_partition_start +
        scenario_map.rootfs_a_partition_count) * BLOCK_SIZE ≤ img.length ∧
      img.getD 510 0 = 0x55 ∧ img.getD 511 0 = 0xaa ∧
      (img.drop (scenario_map.ubl_start * BLOCK_SIZE)).take 2048 =
        List.replicate 2048 7 := by
  refine ⟨List.length_replicate 2048 7, List.length_replicate 4096 7,
    List.length_replicate 64000 7, ?_⟩
  exact c7_end_to_end_scenario false "v" none (List.replicate 2048 7)
    (List.replicate 4096 7) (List.replicate 64000 7)
    (List.length_replicate 2048 7) (List.length_replicate 4096 7)
    (List.length_replicate 64000 7)
